import Mathlib

/-!
Verification of the SocketPacketUtils byte-stream transport layer.

This file shallowly embeds the C implementation (socket_packet_utils.c).
The endpoint state `serv_socket_state_t` becomes `SockState`; descriptors
are `Int` with the source's `-1` sentinel for "unset".  Each OS system
call performed by an operation is an explicit oracle parameter:

* a `read`/`write` outcome is an `RWResult` / `WriteResult` (the `-1` with
  `errno == EAGAIN` outcome is `eagain`; `-1` with any other `errno` is
  `err`; a non-negative return carries the bytes read resp. the count
  written);
* the environment consulted by `socket_init` is an `InitEnv`, and the
  `accept`/`fcntl` calls of the lazy attach step are an `AttachEnv`.

A returned `none` models the process not returning from the call:
`exit(EXIT_FAILURE)`, an `assert` failure, or the blocking completion
loop of `socket_getN`/`socket_putN` never finishing within the supplied
trace of blocking-call outcomes.  Stores into a `uint8_t` buffer are
modelled with `% 256`.  The `closed` field is OS-level ghost state
recording every descriptor passed to `close`, so that facts about
operations on a closed descriptor can be stated.
-/

/-- Sentinel returned by `socket_get8` for no-data/failure: `(uint32_t)(-1)`. -/
def SENTINEL32 : Nat := 0xFFFFFFFF

/-- Retry budget of `socket_put8_blocking` (the loop bound 1000 in the source). -/
def RETRY_BOUND : Nat := 1000

/-- Microseconds slept between retries in `socket_put8_blocking`
(`usleep(1000000)` in the source, i.e. one second). -/
def RETRY_SLEEP_USEC : Nat := 1000000

/-- Embedding of `serv_socket_state_t`: name, port, listening/connecting
descriptor `sock`, connection descriptor `conn` (both `-1` when unset), plus
the ghost list of descriptors closed so far (OS-level bookkeeping, not a
field of the C struct). -/
structure SockState where
  name : String
  port : Int
  sock : Int
  conn : Int
  closed : List Int
deriving Repr, DecidableEq

/-- Outcome of one `read` call: `ok bs` models a return of `bs.length ≥ 0`
with the bytes `bs` deposited in the buffer; `eagain` models `-1` with
`errno == EAGAIN`; `err` models `-1` with any other `errno`. -/
inductive RWResult where
  | ok (bs : List Nat)
  | eagain
  | err
deriving Repr, DecidableEq

/-- Outcome of one `write` call: `ok c` models a return of `c ≥ 0` bytes
accepted; `eagain` models `-1` with `errno == EAGAIN`; `err` models `-1`
with any other `errno`. -/
inductive WriteResult where
  | ok (c : Nat)
  | eagain
  | err
deriving Repr, DecidableEq

/-- POSIX well-formedness of a `read` outcome for a request of `req` bytes:
at most `req` bytes are returned and each is a byte value. -/
def RWResult.wf (r : RWResult) (req : Nat) : Prop :=
  match r with
  | .ok bs => bs.length ≤ req ∧ ∀ b ∈ bs, b < 256
  | .eagain => True
  | .err => True

/-- The conversion `unsigned int` → `int` applied when `socket_create`
stores `dflt_port` into the `int` field `s->port`. -/
def castUIntToInt (u : Nat) : Int :=
  if u % 2 ^ 32 < 2 ^ 31 then ((u % 2 ^ 32 : Nat) : Int)
  else ((u % 2 ^ 32 : Nat) : Int) - 2 ^ 32

/-- Embedding of `socket_create`: allocate the state with the given name and
default port and both descriptors unset. -/
def socket_create (name : String) (dflt_port : Nat) : SockState :=
  { name := name, port := castUIntToInt dflt_port, sock := -1, conn := -1, closed := [] }

/-- Environment consumed by `socket_init`: the parsed value of the
`<name>_PORT` environment variable if set (`atoi` of its text), and the
success of each system call the function makes (`none`/`false` meaning the
call failed, which makes the source `exit`). -/
structure InitEnv where
  envPort : Option Int
  socketFd : Option Nat
  setsockoptOk : Bool
  bindOk : Bool
  listenOk : Bool
  connectOk : Bool
  fcntlOk : Bool
deriving Repr

/-- Embedding of `getPortNumber`: take the environment override when the
variable is defined, the supplied default otherwise, and `assert` that the
result lies in `0..65535` (`none` = assertion failure aborts the process). -/
def getPortNumber (dflt : Int) (envPort : Option Int) : Option Int :=
  let port : Int := match envPort with | some p => p | none => dflt
  if 0 ≤ port ∧ port ≤ 65535 then some port else none

/-- Embedding of `socket_init`: a no-op when `sock` is already set;
otherwise create the socket, set `SO_REUSEADDR`, resolve the port, then
bind+listen (server) or connect (client) and set the socket non-blocking.
Every failing system call, and an out-of-range port resolution, makes the
source process exit, modelled by `none`. -/
def socket_init (s : SockState) (server : Bool) (env : InitEnv) : Option SockState :=
  if s.sock ≠ -1 then some s
  else
    match env.socketFd with
    | none => none
    | some fd =>
      if ¬ env.setsockoptOk then none
      else
        match getPortNumber s.port env.envPort with
        | none => none
        | some p =>
          if server then
            if ¬ env.bindOk then none
            else if ¬ env.listenOk then none
            else if ¬ env.fcntlOk then none
            else some { s with sock := (fd : Int), port := p }
          else
            if ¬ env.connectOk then none
            else if ¬ env.fcntlOk then none
            else some { s with sock := (fd : Int), port := p }

/-- Environment consumed by the lazy attach step `acceptConnection`: the
`InitEnv` for a possible lazy `socket_init`, the outcome of `accept`
(`none` = returned `-1`, `some fd` = a new descriptor), and the success of
the `fcntl` pair that makes the accepted descriptor non-blocking. -/
structure AttachEnv where
  init : InitEnv
  acceptFd : Option Nat
  acceptFcntlOk : Bool
deriving Repr

/-- Embedding of `acceptConnection`: a no-op when a connection is attached;
lazily initialises when `sock` is unset; a server then tries one
non-blocking `accept` (leaving `conn` unset when none is pending), while a
client attaches the underlying descriptor itself (`s->conn = s->sock`). -/
def acceptConnection (s : SockState) (server : Bool) (env : AttachEnv) : Option SockState :=
  if s.conn ≠ -1 then some s
  else
    match (if s.sock = -1 then socket_init s server env.init else some s) with
    | none => none
    | some s1 =>
      if server then
        match env.acceptFd with
        | none => some s1
        | some fd => if env.acceptFcntlOk then some { s1 with conn := (fd : Int) } else none
      else some { s1 with conn := s1.sock }

/-- Embedding of `socket_get8`: ensure attachment; unattached returns the
sentinel; then one non-blocking read of one byte returns the byte on
success, the sentinel on `EAGAIN`, and on any other outcome (`0` = EOF or
an error) closes and detaches the connection and returns the sentinel. -/
def socket_get8 (s : SockState) (server : Bool) (env : AttachEnv) (r : RWResult) :
    Option (Nat × SockState) :=
  match acceptConnection s server env with
  | none => none
  | some s1 =>
    if s1.conn = -1 then some (SENTINEL32, s1)
    else
      match r with
      | .ok [b] => some (b % 256, s1)
      | .eagain => some (SENTINEL32, s1)
      | _ => some (SENTINEL32, { s1 with conn := -1, closed := s1.conn :: s1.closed })

/-- Embedding of `socket_put8`: ensure attachment; unattached returns 0;
then one non-blocking write of one byte returns 1 when exactly one byte was
accepted, 0 on `EAGAIN` without detaching, and on any other outcome closes
and detaches the connection and returns 0. -/
def socket_put8 (s : SockState) (_byte : Nat) (server : Bool) (env : AttachEnv)
    (w : WriteResult) : Option (Nat × SockState) :=
  match acceptConnection s server env with
  | none => none
  | some s1 =>
    if s1.conn = -1 then some (0, s1)
    else
      match w with
      | .ok 1 => some (1, s1)
      | .eagain => some (0, s1)
      | _ => some (0, { s1 with conn := -1, closed := s1.conn :: s1.closed })

/-- The retry loop of `socket_put8_blocking` over the per-attempt write
outcomes `ws`, starting at attempt index `attempt` with `rem` attempts
remaining.  Returns the flag the function returns together with the number
of write attempts performed.  An accepted byte returns `(1, _)`; a
non-transient outcome (a count other than 1, or an error other than
`EAGAIN`) returns `(0, _)` immediately; `EAGAIN` sleeps and retries. -/
def put8BlockingLoop (ws : Nat → WriteResult) (attempt : Nat) : Nat → Nat × Nat
  | 0 => (0, 0)
  | Nat.succ rem =>
    match ws attempt with
    | .ok 1 => (1, 1)
    | .eagain =>
      let p := put8BlockingLoop ws (attempt + 1) rem
      (p.1, p.2 + 1)
    | .ok _ => (0, 1)
    | .err => (0, 1)

/-- Embedding of `socket_put8_blocking`: ensure attachment; unattached
returns 0 with no write attempt; otherwise run the bounded retry loop
(`RETRY_BOUND` attempts, sleeping `RETRY_SLEEP_USEC` microseconds between
attempts).  The returned triple is (flag, attempts performed, state); note
the source never detaches the connection here. -/
def socket_put8_blocking (s : SockState) (_byte : Nat) (server : Bool) (env : AttachEnv)
    (ws : Nat → WriteResult) : Option (Nat × Nat × SockState) :=
  match acceptConnection s server env with
  | none => none
  | some s1 =>
    if s1.conn = -1 then some (0, 0, s1)
    else
      let p := put8BlockingLoop ws 0 RETRY_BOUND
      some (p.1, p.2, s1)

/-- The blocking completion loop of `socket_getN`: `acc` is the data read so
far, `chunks` the trace of outcomes of the `select`+`read` pairs (each
`read` asserted non-negative in the source, so a chunk is the byte list one
such read returns).  Returns the full buffer contents, or `none` when the
trace is exhausted before `nbytes` bytes have accumulated (the loop has not
terminated within the supplied trace). -/
def getNLoop (nbytes : Nat) (acc : List Nat) : List (List Nat) → Option (List Nat)
  | [] => if nbytes ≤ acc.length then some acc else none
  | c :: rest =>
    if nbytes ≤ acc.length then some acc
    else getNLoop nbytes (acc ++ c.map (fun b => b % 256)) rest

/-- Embedding of `socket_getN`.  The result models the `nbytes + 1`-byte
output buffer as (data written, status slot `bytes[nbytes]`, new state):
unattached sets the status to `0xff`; a full first read sets it to `0`;
a partial first read (`0 < count < nbytes`) commits to the blocking
completion loop and then sets it to `0`; no first-read data sets it to
`0xff`, additionally closing and detaching unless the condition was
`EAGAIN`. -/
def socket_getN (s : SockState) (nbytes : Nat) (server : Bool) (env : AttachEnv)
    (r0 : RWResult) (chunks : List (List Nat)) : Option (List Nat × Nat × SockState) :=
  match acceptConnection s server env with
  | none => none
  | some s1 =>
    if s1.conn = -1 then some ([], 0xff, s1)
    else
      match r0 with
      | .ok bs =>
        if bs.length = nbytes then some (bs.map (fun b => b % 256), 0, s1)
        else if 0 < bs.length then
          match getNLoop nbytes (bs.map (fun b => b % 256)) chunks with
          | none => none
          | some data => some (data, 0, s1)
        else some ([], 0xff, { s1 with conn := -1, closed := s1.conn :: s1.closed })
      | .eagain => some ([], 0xff, s1)
      | .err => some ([], 0xff, { s1 with conn := -1, closed := s1.conn :: s1.closed })

/-- The blocking completion loop of `socket_putN`: `count` bytes written so
far, `chunks` the trace of counts of the `select`+`write` pairs (each
`write` asserted non-negative in the source).  Returns `some ()` when
`nbytes` is reached, `none` when the trace is exhausted first. -/
def putNLoop (nbytes : Nat) (count : Nat) : List Nat → Option Unit
  | [] => if nbytes ≤ count then some () else none
  | c :: rest =>
    if nbytes ≤ count then some ()
    else putNLoop nbytes (count + c) rest

/-- Embedding of `socket_putN`: unattached returns 0; a full first write
returns 1; a partial first write (`0 < count < nbytes`) commits to the
blocking completion loop and returns 1; zero bytes accepted with `EAGAIN`
returns 0 without detaching; any other outcome (including a zero count)
closes and detaches the connection and returns 0. -/
def socket_putN (s : SockState) (nbytes : Nat) (_data : List Nat) (server : Bool)
    (env : AttachEnv) (w0 : WriteResult) (chunks : List Nat) : Option (Nat × SockState) :=
  match acceptConnection s server env with
  | none => none
  | some s1 =>
    if s1.conn = -1 then some (0, s1)
    else
      match w0 with
      | .ok c =>
        if c = nbytes then some (1, s1)
        else if 0 < c then
          match putNLoop nbytes c chunks with
          | none => none
          | some _ => some (1, s1)
        else some (0, { s1 with conn := -1, closed := s1.conn :: s1.closed })
      | .eagain => some (0, s1)
      | .err => some (0, { s1 with conn := -1, closed := s1.conn :: s1.closed })

/-- Observable outcome of one API operation: the `uint32_t` value of
`socket_get8`, the success flag of the put family, or the (data, status)
pair of `socket_getN`. -/
inductive OpOut where
  | val (v : Nat)
  | flag (b : Nat)
  | nres (data : List Nat) (status : Nat)
deriving Repr, DecidableEq

/-- An outcome that reports failure or no-data: the `0xFFFFFFFF` sentinel,
a `0` success flag, or a `0xff` status slot. -/
def OpOut.isFail : OpOut → Bool
  | .val v => v == SENTINEL32
  | .flag b => b == 0
  | .nres _ st => st == 0xff

/-- One API call together with the oracle answers its system calls get. -/
inductive Op where
  | oget8 (env : AttachEnv) (r : RWResult)
  | oput8 (b : Nat) (env : AttachEnv) (w : WriteResult)
  | oput8b (b : Nat) (env : AttachEnv) (ws : Nat → WriteResult)
  | ogetN (n : Nat) (env : AttachEnv) (r0 : RWResult) (chunks : List (List Nat))
  | oputN (n : Nat) (data : List Nat) (env : AttachEnv) (w0 : WriteResult) (chunks : List Nat)

/-- Run one API operation on an endpoint of the given role. -/
def step (server : Bool) (s : SockState) : Op → Option (OpOut × SockState)
  | .oget8 env r => (socket_get8 s server env r).map (fun p => (OpOut.val p.1, p.2))
  | .oput8 b env w => (socket_put8 s b server env w).map (fun p => (OpOut.flag p.1, p.2))
  | .oput8b b env ws =>
    (socket_put8_blocking s b server env ws).map (fun p => (OpOut.flag p.1, p.2.2))
  | .ogetN n env r0 chunks =>
    (socket_getN s n server env r0 chunks).map (fun p => (OpOut.nres p.1 p.2.1, p.2.2))
  | .oputN n data env w0 chunks =>
    (socket_putN s n data server env w0 chunks).map (fun p => (OpOut.flag p.1, p.2))

/-- Run a sequence of API operations, collecting the outcomes. -/
def runOps (server : Bool) (s : SockState) : List Op → Option (List OpOut × SockState)
  | [] => some ([], s)
  | op :: rest =>
    match step server s op with
    | none => none
    | some (o, s1) =>
      match runOps server s1 rest with
      | none => none
      | some (os, s2) => some (o :: os, s2)

/-- The oracle of an operation answers every first read/write with an
`errno ≠ EAGAIN` error — the OS behaviour (`EBADF`) when the descriptor the
operation uses has been closed. -/
def Op.allErr : Op → Prop
  | .oget8 _ r => r = .err
  | .oput8 _ _ w => w = .err
  | .oput8b _ _ ws => ∀ i, ws i = .err
  | .ogetN _ _ r0 _ => r0 = .err
  | .oputN _ _ _ w0 _ => w0 = .err

/-- A client endpoint whose connection has been lost: the underlying
descriptor is set but has been closed, and the connection descriptor is
either unset or the (closed) underlying descriptor itself. -/
def brokenClient (s : SockState) : Prop :=
  s.sock ≠ -1 ∧ s.sock ∈ s.closed ∧ (s.conn = -1 ∨ s.conn = s.sock)

/-- A placeholder attach environment for concrete instantiations where the
attach step consults no oracle. -/
def dummyEnv : AttachEnv :=
  { init := { envPort := none, socketFd := none, setsockoptOk := false,
              bindOk := false, listenOk := false, connectOk := false, fcntlOk := false },
    acceptFd := none, acceptFcntlOk := false }

/-- Well-formedness of the blocking-read trace of `socket_getN`: each
`read` in the completion loop requests `nbytes - count` bytes, so it
returns at most that many (`k` is the running count). -/
def chunksWF (nbytes : Nat) : Nat → List (List Nat) → Prop
  | _, [] => True
  | k, c :: rest => c.length ≤ nbytes - k ∧ chunksWF nbytes (k + c.length) rest
theorem acceptConnection_attached (s : SockState) (server : Bool) (env : AttachEnv)
    (h : s.conn ≠ -1) : acceptConnection s server env = some s := by
  simp [acceptConnection, h]

theorem acceptConnection_client_sock (s : SockState) (env : AttachEnv)
    (hc : s.conn = -1) (hs : s.sock ≠ -1) :
    acceptConnection s false env = some { s with conn := s.sock } := by
  simp [acceptConnection, hc, hs]

theorem acceptConnection_shape (s s1 : SockState) (server : Bool) (env : AttachEnv)
    (hs : s.sock ≠ -1) (h : acceptConnection s server env = some s1) :
    ∃ c, s1 = { s with conn := c } := by
  by_cases hc : s.conn = -1
  · cases server with
    | true =>
      cases hfd : env.acceptFd with
      | none =>
        simp [acceptConnection, hc, hs, hfd] at h
        exact ⟨s.conn, h.symm⟩
      | some fd =>
        by_cases hfc : env.acceptFcntlOk
        · simp [acceptConnection, hc, hs, hfd, hfc] at h
          exact ⟨(fd : Int), h.symm⟩
        · simp [acceptConnection, hc, hs, hfd, hfc] at h
    | false =>
      simp [acceptConnection, hc, hs] at h
      exact ⟨s.sock, h.symm⟩
  · rw [acceptConnection_attached s server env hc] at h
    simp at h
    exact ⟨s.conn, h.symm⟩
theorem socket_get8_shape (s s1 : SockState) (server : Bool) (env : AttachEnv) (r : RWResult)
    (v : Nat) (s' : SockState) (ha : acceptConnection s server env = some s1)
    (h : socket_get8 s server env r = some (v, s')) :
    s' = s1 ∨ s' = { s1 with conn := -1, closed := s1.conn :: s1.closed } := by
  unfold socket_get8 at h
  rw [ha] at h
  by_cases hc : s1.conn = -1
  · simp [hc] at h; exact Or.inl h.2.symm
  · simp [hc] at h
    cases r with
    | ok bs =>
      cases bs with
      | nil => simp at h; exact Or.inr h.2.symm
      | cons b t =>
        cases t with
        | nil => simp at h; exact Or.inl h.2.symm
        | cons c u => simp at h; exact Or.inr h.2.symm
    | eagain => simp at h; exact Or.inl h.2.symm
    | err => simp at h; exact Or.inr h.2.symm

theorem socket_put8_shape (s s1 : SockState) (b : Nat) (server : Bool) (env : AttachEnv)
    (w : WriteResult) (v : Nat) (s' : SockState) (ha : acceptConnection s server env = some s1)
    (h : socket_put8 s b server env w = some (v, s')) :
    s' = s1 ∨ s' = { s1 with conn := -1, closed := s1.conn :: s1.closed } := by
  unfold socket_put8 at h
  rw [ha] at h
  by_cases hc : s1.conn = -1
  · simp [hc] at h; exact Or.inl h.2.symm
  · simp [hc] at h
    cases w with
    | ok c =>
      cases c with
      | zero => simp at h; exact Or.inr h.2.symm
      | succ m =>
        cases m with
        | zero => simp at h; exact Or.inl h.2.symm
        | succ k => simp at h; exact Or.inr h.2.symm
    | eagain => simp at h; exact Or.inl h.2.symm
    | err => simp at h; exact Or.inr h.2.symm

theorem socket_put8_blocking_shape (s s1 : SockState) (b : Nat) (server : Bool)
    (env : AttachEnv) (ws : Nat → WriteResult) (v a : Nat) (s' : SockState)
    (ha : acceptConnection s server env = some s1)
    (h : socket_put8_blocking s b server env ws = some (v, a, s')) : s' = s1 := by
  unfold socket_put8_blocking at h
  rw [ha] at h
  by_cases hc : s1.conn = -1
  · simp [hc] at h; exact h.2.2.symm
  · simp [hc] at h; exact h.2.2.symm

theorem socket_getN_shape (s s1 : SockState) (n : Nat) (server : Bool) (env : AttachEnv)
    (r0 : RWResult) (chunks : List (List Nat)) (d : List Nat) (st : Nat) (s' : SockState)
    (ha : acceptConnection s server env = some s1)
    (h : socket_getN s n server env r0 chunks = some (d, st, s')) :
    s' = s1 ∨ s' = { s1 with conn := -1, closed := s1.conn :: s1.closed } := by
  unfold socket_getN at h
  rw [ha] at h
  by_cases hc : s1.conn = -1
  · simp [hc] at h; exact Or.inl h.2.2.symm
  · simp [hc] at h
    cases r0 with
    | ok bs =>
      by_cases hn : bs.length = n
      · simp [hn] at h; exact Or.inl h.2.2.symm
      · simp [hn] at h
        by_cases hp : 0 < bs.length
        · simp [hp] at h
          cases hl : getNLoop n (bs.map (fun b => b % 256)) chunks with
          | none => rw [hl] at h; simp at h
          | some data => rw [hl] at h; simp at h; exact Or.inl h.2.2.symm
        · simp [hp] at h; exact Or.inr h.2.2.symm
    | eagain => simp at h; exact Or.inl h.2.2.symm
    | err => simp at h; exact Or.inr h.2.2.symm

theorem socket_putN_shape (s s1 : SockState) (n : Nat) (data : List Nat) (server : Bool)
    (env : AttachEnv) (w0 : WriteResult) (chunks : List Nat) (v : Nat) (s' : SockState)
    (ha : acceptConnection s server env = some s1)
    (h : socket_putN s n data server env w0 chunks = some (v, s')) :
    s' = s1 ∨ s' = { s1 with conn := -1, closed := s1.conn :: s1.closed } := by
  unfold socket_putN at h
  rw [ha] at h
  by_cases hc : s1.conn = -1
  · simp [hc] at h; exact Or.inl h.2.symm
  · simp [hc] at h
    cases w0 with
    | ok c =>
      by_cases hn : c = n
      · simp [hn] at h; exact Or.inl h.2.symm
      · simp [hn] at h
        by_cases hp : 0 < c
        · simp [hp] at h
          cases hl : putNLoop n c chunks with
          | none => rw [hl] at h; simp at h
          | some u => rw [hl] at h; simp at h; exact Or.inl h.2.symm
        · simp [hp] at h; exact Or.inr h.2.symm
    | eagain => simp at h; exact Or.inl h.2.symm
    | err => simp at h; exact Or.inr h.2.symm
theorem step_shape (server : Bool) (s : SockState) (op : Op) (o : OpOut) (s' : SockState)
    (hs : s.sock ≠ -1) (h : step server s op = some (o, s')) :
    ∃ c cl, s' = { s with conn := c, closed := cl } := by
  cases op with
  | oget8 env r =>
    simp only [step] at h
    cases hg : socket_get8 s server env r with
    | none => rw [hg] at h; simp at h
    | some p =>
      rw [hg] at h
      simp at h
      obtain ⟨p1, p2⟩ := p
      cases ha : acceptConnection s server env with
      | none => unfold socket_get8 at hg; rw [ha] at hg; simp at hg
      | some s1 =>
        obtain ⟨c, rfl⟩ := acceptConnection_shape s s1 server env hs ha
        rcases socket_get8_shape s _ server env r p1 p2 ha hg with h2 | h2 <;>
          rw [← h.2, h2] <;> exact ⟨_, _, rfl⟩
  | oput8 b env w =>
    simp only [step] at h
    cases hg : socket_put8 s b server env w with
    | none => rw [hg] at h; simp at h
    | some p =>
      rw [hg] at h
      simp at h
      obtain ⟨p1, p2⟩ := p
      cases ha : acceptConnection s server env with
      | none => unfold socket_put8 at hg; rw [ha] at hg; simp at hg
      | some s1 =>
        obtain ⟨c, rfl⟩ := acceptConnection_shape s s1 server env hs ha
        rcases socket_put8_shape s _ b server env w p1 p2 ha hg with h2 | h2 <;>
          rw [← h.2, h2] <;> exact ⟨_, _, rfl⟩
  | oput8b b env ws =>
    simp only [step] at h
    cases hg : socket_put8_blocking s b server env ws with
    | none => rw [hg] at h; simp at h
    | some p =>
      rw [hg] at h
      simp at h
      obtain ⟨p1, p2, p3⟩ := p
      cases ha : acceptConnection s server env with
      | none => unfold socket_put8_blocking at hg; rw [ha] at hg; simp at hg
      | some s1 =>
        obtain ⟨c, rfl⟩ := acceptConnection_shape s s1 server env hs ha
        have h2 := socket_put8_blocking_shape s _ b server env ws p1 p2 p3 ha hg
        rw [← h.2, h2]
        exact ⟨_, _, rfl⟩
  | ogetN n env r0 chunks =>
    simp only [step] at h
    cases hg : socket_getN s n server env r0 chunks with
    | none => rw [hg] at h; simp at h
    | some p =>
      rw [hg] at h
      simp at h
      obtain ⟨p1, p2, p3⟩ := p
      cases ha : acceptConnection s server env with
      | none => unfold socket_getN at hg; rw [ha] at hg; simp at hg
      | some s1 =>
        obtain ⟨c, rfl⟩ := acceptConnection_shape s s1 server env hs ha
        rcases socket_getN_shape s _ n server env r0 chunks p1 p2 p3 ha hg with h2 | h2 <;>
          rw [← h.2, h2] <;> exact ⟨_, _, rfl⟩
  | oputN n data env w0 chunks =>
    simp only [step] at h
    cases hg : socket_putN s n data server env w0 chunks with
    | none => rw [hg] at h; simp at h
    | some p =>
      rw [hg] at h
      simp at h
      obtain ⟨p1, p2⟩ := p
      cases ha : acceptConnection s server env with
      | none => unfold socket_putN at hg; rw [ha] at hg; simp at hg
      | some s1 =>
        obtain ⟨c, rfl⟩ := acceptConnection_shape s s1 server env hs ha
        rcases socket_putN_shape s _ n data server env w0 chunks p1 p2 ha hg with h2 | h2 <;>
          rw [← h.2, h2] <;> exact ⟨_, _, rfl⟩

theorem step_preserves (server : Bool) (s : SockState) (op : Op) (o : OpOut) (s' : SockState)
    (hs : s.sock ≠ -1) (h : step server s op = some (o, s')) :
    s'.sock = s.sock ∧ s'.port = s.port ∧ s'.name = s.name := by
  obtain ⟨c, cl, rfl⟩ := step_shape server s op o s' hs h
  exact ⟨rfl, rfl, rfl⟩
theorem getPortNumber_some (dflt p : Int) (envPort : Option Int)
    (h : getPortNumber dflt envPort = some p) :
    p = envPort.getD dflt ∧ 0 ≤ p ∧ p ≤ 65535 := by
  cases envPort with
  | none =>
    unfold getPortNumber at h
    dsimp only at h
    split_ifs at h with hr
    simp at h
    simp [Option.getD]
    omega
  | some q =>
    unfold getPortNumber at h
    dsimp only at h
    split_ifs at h with hr
    simp at h
    simp [Option.getD]
    omega

theorem getPortNumber_none (dflt : Int) (envPort : Option Int)
    (h : ¬ (0 ≤ envPort.getD dflt ∧ envPort.getD dflt ≤ 65535)) :
    getPortNumber dflt envPort = none := by
  unfold getPortNumber
  cases envPort <;> simp_all

theorem socket_init_shape (s s1 : SockState) (server : Bool) (env : InitEnv)
    (h0 : s.sock = -1) (h : socket_init s server env = some s1) :
    ∃ fd p, env.socketFd = some fd ∧
      getPortNumber s.port env.envPort = some p ∧
      s1 = { s with sock := (fd : Int), port := p } := by
  unfold socket_init at h
  rw [if_neg (by simp [h0])] at h
  cases hfd : env.socketFd with
  | none => rw [hfd] at h; simp at h
  | some fd =>
    rw [hfd] at h
    dsimp only at h
    by_cases hso : env.setsockoptOk
    · rw [if_neg (by simp [hso])] at h
      cases hp : getPortNumber s.port env.envPort with
      | none => rw [hp] at h; simp at h
      | some p =>
        rw [hp] at h
        dsimp only at h
        refine ⟨fd, p, rfl, rfl, ?_⟩
        cases server with
        | true => split_ifs at h <;> simp_all
        | false => split_ifs at h <;> simp_all
    · rw [if_pos (by simp [hso])] at h
      simp at h
/-- Claim C8: `socket_init` is idempotent — with the listen descriptor
already set it returns the state unchanged for every environment (hence no
port re-resolution, socket creation, bind/listen/connect is observable),
a first successful initialization always leaves the descriptor set, and no
later API operation ever changes it, so the descriptor goes from unset to
set exactly once. -/
theorem socket_init_idempotent :
    (∀ (s : SockState) (server : Bool) (env : InitEnv),
      s.sock ≠ -1 → socket_init s server env = some s) ∧
    (∀ (s : SockState) (server : Bool) (env : InitEnv) (s1 : SockState),
      s.sock = -1 → socket_init s server env = some s1 → s1.sock ≠ -1) ∧
    (∀ (server : Bool) (s : SockState) (op : Op) (o : OpOut) (s1 : SockState),
      s.sock ≠ -1 → step server s op = some (o, s1) → s1.sock = s.sock) := by
  refine ⟨?_, ?_, ?_⟩
  · intro s server env h
    simp [socket_init, h]
  · intro s server env s1 h0 h
    obtain ⟨fd, p, _, _, rfl⟩ := socket_init_shape s s1 server env h0 h
    have hfd : (0 : Int) ≤ (fd : Int) := Int.natCast_nonneg fd
    simp only [ne_eq]
    intro hcontra
    rw [hcontra] at hfd
    omega
  · intro server s op o s1 hs h
    exact (step_preserves server s op o s1 hs h).1

/-- Witness for C8 at concrete inputs: a second `socket_init` on an
initialized endpoint is a no-op, and a first one sets the descriptor. -/
theorem socket_init_idempotent_witness :
    (socket_init { name := "A", port := 100, sock := 3, conn := -1, closed := [] } true
      { envPort := some 5, socketFd := some 7, setsockoptOk := true, bindOk := true,
        listenOk := true, connectOk := true, fcntlOk := true } =
      some { name := "A", port := 100, sock := 3, conn := -1, closed := [] }) ∧
    ({ name := "A", port := 7, sock := 4, conn := -1, closed := [] } : SockState).sock ≠ -1 := by
  constructor
  · exact socket_init_idempotent.1 _ true _ (by decide)
  · exact socket_init_idempotent.2.1
      { name := "A", port := 100, sock := -1, conn := -1, closed := [] } false
      { envPort := some 7, socketFd := some 4, setsockoptOk := true, bindOk := false,
        listenOk := false, connectOk := true, fcntlOk := true }
      _ (by decide) (by decide)
/-- Claim C9: `port` holds the creation-time default after `socket_create`;
the first (and only) `socket_init` resolves it, taking the environment
override when defined and the stored default otherwise, and the resolved
value lies in `0..65535` — an out-of-range resolution makes `socket_init`
not return (the `assert` aborts the process, modelled `none`); after
initialization no API operation ever changes the stored port. -/
theorem configuredPort_resolution :
    (∀ (name : String) (dflt : Nat),
      (socket_create name dflt).port = castUIntToInt dflt ∧
      (socket_create name dflt).sock = -1) ∧
    (∀ (s : SockState) (server : Bool) (env : InitEnv) (s1 : SockState),
      s.sock = -1 → socket_init s server env = some s1 →
      s1.port = env.envPort.getD s.port ∧ 0 ≤ s1.port ∧ s1.port ≤ 65535) ∧
    (∀ (s : SockState) (server : Bool) (env : InitEnv),
      s.sock = -1 → ¬ (0 ≤ env.envPort.getD s.port ∧ env.envPort.getD s.port ≤ 65535) →
      socket_init s server env = none) ∧
    (∀ (server : Bool) (s : SockState) (op : Op) (o : OpOut) (s1 : SockState),
      s.sock ≠ -1 → step server s op = some (o, s1) → s1.port = s.port) := by
  refine ⟨?_, ?_, ?_, ?_⟩
  · intro name dflt
    exact ⟨rfl, rfl⟩
  · intro s server env s1 h0 h
    obtain ⟨fd, p, _, hp, rfl⟩ := socket_init_shape s s1 server env h0 h
    simpa using getPortNumber_some s.port p env.envPort hp
  · intro s server env h0 hout
    unfold socket_init
    rw [if_neg (by simp [h0])]
    cases hfd : env.socketFd with
    | none => rfl
    | some fd =>
      dsimp only
      by_cases hso : env.setsockoptOk
      · rw [if_neg (by simp [hso])]
        rw [getPortNumber_none s.port env.envPort hout]
      · rw [if_pos (by simp [hso])]
  · intro server s op o s1 hs h
    exact (step_preserves server s op o s1 hs h).2.1

/-- Witness for C9 at concrete inputs: creation stores the default, a first
initialization resolves the override 7, an out-of-range override 70000
aborts, and a later operation preserves the port. -/
theorem configuredPort_resolution_witness :
    ((socket_create "A" 100).port = castUIntToInt 100 ∧ (socket_create "A" 100).sock = -1) ∧
    (({ name := "A", port := 7, sock := 4, conn := -1, closed := [] } : SockState).port =
        (some (7 : Int)).getD 100 ∧
      (0 : Int) ≤ 7 ∧ (7 : Int) ≤ 65535) ∧
    (socket_init { name := "A", port := 100, sock := -1, conn := -1, closed := [] } false
      { envPort := some 70000, socketFd := some 4, setsockoptOk := true, bindOk := true,
        listenOk := true, connectOk := true, fcntlOk := true } = none) := by
  refine ⟨configuredPort_resolution.1 "A" 100, ?_, ?_⟩
  · exact configuredPort_resolution.2.1
      { name := "A", port := 100, sock := -1, conn := -1, closed := [] } false
      { envPort := some 7, socketFd := some 4, setsockoptOk := true, bindOk := false,
        listenOk := false, connectOk := true, fcntlOk := true }
      { name := "A", port := 7, sock := 4, conn := -1, closed := [] }
      (by decide) (by decide)
  · exact configuredPort_resolution.2.2.1
      { name := "A", port := 100, sock := -1, conn := -1, closed := [] } false
      { envPort := some 70000, socketFd := some 4, setsockoptOk := true, bindOk := true,
        listenOk := true, connectOk := true, fcntlOk := true }
      (by decide) (by decide)
/-- Claim C5: `socket_get8` returns either a byte value in `0..255` or the
sentinel `0xFFFFFFFF`, and these spaces never overlap; the sentinel is
returned exactly when no connection is attached after the lazy attach
step, when the one-byte non-blocking read reported the transient `EAGAIN`
condition, or when the read failed non-transiently (an error with
`errno ≠ EAGAIN`, or end-of-stream returning 0 bytes), the non-transient
case also detaching the connection. -/
theorem socket_get8_cases (s s1 : SockState) (server : Bool) (env : AttachEnv)
    (r : RWResult) (v : Nat) (s' : SockState)
    (hwf : r.wf 1)
    (ha : acceptConnection s server env = some s1)
    (h : socket_get8 s server env r = some (v, s')) :
    (v < 256 ∨ v = SENTINEL32) ∧ ¬ (v < 256 ∧ v = SENTINEL32) ∧
    (v = SENTINEL32 ↔ (s1.conn = -1 ∨ r = .eagain ∨ r = .err ∨ r = .ok [])) ∧
    (s1.conn ≠ -1 → (r = .err ∨ r = .ok []) → s'.conn = -1) := by
  unfold socket_get8 at h
  rw [ha] at h
  by_cases hc : s1.conn = -1
  · simp [hc] at h
    obtain ⟨rfl, rfl⟩ := h
    refine ⟨Or.inr rfl, ?_, ?_, ?_⟩
    · intro hcontra
      have : ¬ (SENTINEL32 < 256) := by decide
      exact this hcontra.1
    · simp [hc]
    · intro hcontra
      exact absurd hc hcontra
  · simp [hc] at h
    cases r with
    | ok bs =>
      cases bs with
      | nil =>
        simp at h
        obtain ⟨rfl, rfl⟩ := h
        refine ⟨Or.inr rfl, ?_, ?_, ?_⟩
        · intro hcontra
          have : ¬ (SENTINEL32 < 256) := by decide
          exact this hcontra.1
        · simp
        · intro _ _; rfl
      | cons b t =>
        cases t with
        | nil =>
          simp at h
          obtain ⟨rfl, rfl⟩ := h
          have hlt : b % 256 < 256 := Nat.mod_lt _ (by norm_num)
          refine ⟨Or.inl hlt, ?_, ?_, ?_⟩
          · intro hcontra
            have : SENTINEL32 = 0xFFFFFFFF := rfl
            omega
          · constructor
            · intro hv
              have : SENTINEL32 = 0xFFFFFFFF := rfl
              omega
            · intro hcases
              rcases hcases with hx | hx | hx | hx <;> simp_all
          · intro _ hx
            rcases hx with hx | hx <;> simp_all
        | cons c u =>
          exfalso
          simp [RWResult.wf] at hwf
    | eagain =>
      simp at h
      obtain ⟨rfl, rfl⟩ := h
      refine ⟨Or.inr rfl, ?_, ?_, ?_⟩
      · intro hcontra
        have : ¬ (SENTINEL32 < 256) := by decide
        exact this hcontra.1
      · simp
      · intro _ hx
        rcases hx with hx | hx <;> simp_all
    | err =>
      simp at h
      obtain ⟨rfl, rfl⟩ := h
      refine ⟨Or.inr rfl, ?_, ?_, ?_⟩
      · intro hcontra
        have : ¬ (SENTINEL32 < 256) := by decide
        exact this hcontra.1
      · simp
      · intro _ _; rfl
/-- Concrete endpoint state with an attached connection, used to
instantiate the hypothesis-bearing theorems. -/
def sampleAttached : SockState :=
  { name := "A", port := 100, sock := 3, conn := 7, closed := [] }

/-- Witness for C5 at concrete inputs: an attached endpoint whose read
returns the byte 5. -/
theorem socket_get8_cases_witness :
    ((5 : Nat) < 256 ∨ (5 : Nat) = SENTINEL32) ∧
    ¬ ((5 : Nat) < 256 ∧ (5 : Nat) = SENTINEL32) ∧
    ((5 : Nat) = SENTINEL32 ↔
      (sampleAttached.conn = -1 ∨ RWResult.ok [5] = RWResult.eagain ∨
        RWResult.ok [5] = RWResult.err ∨ RWResult.ok [5] = RWResult.ok [])) ∧
    (sampleAttached.conn ≠ -1 →
      (RWResult.ok [5] = RWResult.err ∨ RWResult.ok [5] = RWResult.ok []) →
      sampleAttached.conn = -1) :=
  socket_get8_cases sampleAttached sampleAttached true dummyEnv (RWResult.ok [5]) 5
    sampleAttached (by exact ⟨by decide, by decide⟩) (by decide) (by decide)

/-- Claim C6: `socket_put8` returns 1 exactly when attached and the single
non-blocking write accepted exactly one byte; unattached it returns 0; a
transient `EAGAIN` returns 0 leaving the state (and so the attached
connection) unchanged; any other write outcome returns 0 and detaches the
connection. -/
theorem socket_put8_cases (s s1 : SockState) (b : Nat) (server : Bool) (env : AttachEnv)
    (w : WriteResult) (v : Nat) (s' : SockState)
    (ha : acceptConnection s server env = some s1)
    (h : socket_put8 s b server env w = some (v, s')) :
    (v = 1 ↔ (s1.conn ≠ -1 ∧ w = .ok 1)) ∧
    (s1.conn = -1 → v = 0 ∧ s' = s1) ∧
    (s1.conn ≠ -1 → w = .eagain → v = 0 ∧ s' = s1) ∧
    (s1.conn ≠ -1 → w ≠ .ok 1 → w ≠ .eagain → v = 0 ∧ s'.conn = -1) := by
  unfold socket_put8 at h
  rw [ha] at h
  by_cases hc : s1.conn = -1
  · simp [hc] at h
    obtain ⟨rfl, rfl⟩ := h
    refine ⟨by simp [hc], fun _ => ⟨rfl, rfl⟩, ?_, ?_⟩
    · intro hx; exact absurd hc hx
    · intro hx; exact absurd hc hx
  · simp [hc] at h
    cases w with
    | ok c =>
      cases c with
      | zero =>
        simp at h
        obtain ⟨rfl, rfl⟩ := h
        refine ⟨by simp, fun hx => absurd hx hc, ?_, fun _ _ _ => ⟨rfl, rfl⟩⟩
        intro _ hx; simp at hx
      | succ m =>
        cases m with
        | zero =>
          simp at h
          obtain ⟨rfl, rfl⟩ := h
          refine ⟨by simp [hc], fun hx => absurd hx hc, ?_, ?_⟩
          · intro _ hx; simp at hx
          · intro _ hx _; exact absurd rfl hx
        | succ k =>
          simp at h
          obtain ⟨rfl, rfl⟩ := h
          refine ⟨by simp, fun hx => absurd hx hc, ?_, fun _ _ _ => ⟨rfl, rfl⟩⟩
          intro _ hx; simp at hx
    | eagain =>
      simp at h
      obtain ⟨rfl, rfl⟩ := h
      refine ⟨by simp, fun hx => absurd hx hc, fun _ _ => ⟨rfl, rfl⟩, ?_⟩
      intro _ _ hx; exact absurd rfl hx
    | err =>
      simp at h
      obtain ⟨rfl, rfl⟩ := h
      refine ⟨by simp, fun hx => absurd hx hc, ?_, fun _ _ _ => ⟨rfl, rfl⟩⟩
      intro _ hx; simp at hx

/-- Witness for C6 at concrete inputs: an attached endpoint whose write
accepts the byte. -/
theorem socket_put8_cases_witness :
    ((1 : Nat) = 1 ↔ (sampleAttached.conn ≠ -1 ∧ WriteResult.ok 1 = WriteResult.ok 1)) ∧
    (sampleAttached.conn = -1 → (1 : Nat) = 0 ∧ sampleAttached = sampleAttached) ∧
    (sampleAttached.conn ≠ -1 → WriteResult.ok 1 = WriteResult.eagain →
      (1 : Nat) = 0 ∧ sampleAttached = sampleAttached) ∧
    (sampleAttached.conn ≠ -1 → WriteResult.ok 1 ≠ WriteResult.ok 1 →
      WriteResult.ok 1 ≠ WriteResult.eagain → (1 : Nat) = 0 ∧ sampleAttached.conn = -1) :=
  socket_put8_cases sampleAttached sampleAttached 42 true dummyEnv (WriteResult.ok 1) 1
    sampleAttached (by decide) (by decide)
theorem put8BlockingLoop_le (ws : Nat → WriteResult) (attempt rem : Nat) :
    (put8BlockingLoop ws attempt rem).2 ≤ rem := by
  induction rem generalizing attempt with
  | zero => simp [put8BlockingLoop]
  | succ r ih =>
    unfold put8BlockingLoop
    cases hw : ws attempt with
    | ok c =>
      cases c with
      | zero => simp
      | succ m =>
        cases m with
        | zero => simp
        | succ k => simp
    | eagain =>
      simp only
      have := ih (attempt + 1)
      omega
    | err => simp

theorem put8BlockingLoop_all_eagain (ws : Nat → WriteResult) (attempt rem : Nat)
    (h : ∀ i, i < rem → ws (attempt + i) = .eagain) :
    put8BlockingLoop ws attempt rem = (0, rem) := by
  induction rem generalizing attempt with
  | zero => simp [put8BlockingLoop]
  | succ r ih =>
    have h0 : ws attempt = .eagain := by simpa using h 0 (Nat.succ_pos r)
    unfold put8BlockingLoop
    rw [h0]
    simp only
    rw [ih (attempt + 1) (fun i hi => by
      have hx := h (i + 1) (by omega)
      rwa [show attempt + (i + 1) = attempt + 1 + i by omega] at hx)]

theorem put8BlockingLoop_first (ws : Nat → WriteResult) (j : Nat) :
    ∀ attempt rem, j < rem → (∀ i, i < j → ws (attempt + i) = .eagain) →
    (ws (attempt + j) = .ok 1 → put8BlockingLoop ws attempt rem = (1, j + 1)) ∧
    ((ws (attempt + j) = .err ∨ ∃ c, c ≠ 1 ∧ ws (attempt + j) = .ok c) →
      put8BlockingLoop ws attempt rem = (0, j + 1)) := by
  induction j with
  | zero =>
    intro attempt rem hj hpre
    cases rem with
    | zero => omega
    | succ r =>
      constructor
      · intro hw
        simp only [Nat.add_zero] at hw
        unfold put8BlockingLoop
        rw [hw]
      · intro hw
        simp only [Nat.add_zero] at hw
        unfold put8BlockingLoop
        rcases hw with hw | ⟨c, hc, hw⟩
        · rw [hw]
        · rw [hw]
          cases c with
          | zero => simp
          | succ m =>
            cases m with
            | zero => exact absurd rfl hc
            | succ k => simp
  | succ n ih =>
    intro attempt rem hj hpre
    cases rem with
    | zero => omega
    | succ r =>
      have h0 : ws attempt = .eagain := by simpa using hpre 0 (Nat.succ_pos n)
      have hrec := ih (attempt + 1) r (by omega) (fun i hi => by
        have hx := hpre (i + 1) (by omega)
        rwa [show attempt + (i + 1) = attempt + 1 + i by omega] at hx)
      have hshift : attempt + (n + 1) = attempt + 1 + n := by omega
      constructor
      · intro hw
        rw [hshift] at hw
        unfold put8BlockingLoop
        rw [h0]
        simp only
        rw [hrec.1 hw]
      · intro hw
        rw [hshift] at hw
        unfold put8BlockingLoop
        rw [h0]
        simp only
        rw [hrec.2 hw]
/-- Claim C4: `socket_put8_blocking` performs at most `RETRY_BOUND = 1000`
single-byte non-blocking write attempts with a fixed `RETRY_SLEEP_USEC`
(one second) sleep between attempts; unattached it returns 0 after zero
attempts; attached, it never changes the state, returns 0 after all 1000
attempts report `EAGAIN`, returns 1 right at the first attempt that
accepts the byte, and returns 0 immediately at the first attempt that
fails non-transiently. -/
theorem put8_blocking_budget (s s1 : SockState) (b : Nat) (server : Bool) (env : AttachEnv)
    (ws : Nat → WriteResult) (v a : Nat) (s' : SockState)
    (ha : acceptConnection s server env = some s1)
    (h : socket_put8_blocking s b server env ws = some (v, a, s')) :
    RETRY_BOUND = 1000 ∧ RETRY_SLEEP_USEC = 1000000 ∧
    a ≤ RETRY_BOUND ∧
    (s1.conn = -1 → v = 0 ∧ a = 0 ∧ s' = s1) ∧
    (s1.conn ≠ -1 → s' = s1 ∧
      ((∀ i, i < RETRY_BOUND → ws i = .eagain) → v = 0 ∧ a = RETRY_BOUND) ∧
      (∀ j, j < RETRY_BOUND → (∀ i, i < j → ws i = .eagain) →
        (ws j = .ok 1 → v = 1 ∧ a = j + 1) ∧
        ((ws j = .err ∨ ∃ c, c ≠ 1 ∧ ws j = .ok c) → v = 0 ∧ a = j + 1))) := by
  unfold socket_put8_blocking at h
  rw [ha] at h
  by_cases hc : s1.conn = -1
  · simp [hc] at h
    obtain ⟨rfl, rfl, rfl⟩ := h
    exact ⟨rfl, rfl, Nat.zero_le _, fun _ => ⟨rfl, rfl, rfl⟩, fun hx => absurd hc hx⟩
  · simp [hc] at h
    obtain ⟨rfl, rfl, rfl⟩ := h
    refine ⟨rfl, rfl, put8BlockingLoop_le ws 0 RETRY_BOUND, fun hx => absurd hx hc, ?_⟩
    intro _
    refine ⟨rfl, ?_, ?_⟩
    · intro hall
      rw [put8BlockingLoop_all_eagain ws 0 RETRY_BOUND
        (fun i hi => by simpa using hall i hi)]
      exact ⟨rfl, rfl⟩
    · intro j hj hpre
      have hfirst := put8BlockingLoop_first ws j 0 RETRY_BOUND hj
        (fun i hi => by simpa using hpre i hi)
      constructor
      · intro hw
        rw [hfirst.1 (by simpa using hw)]
        exact ⟨rfl, rfl⟩
      · intro hw
        rw [hfirst.2 (by simpa using hw)]
        exact ⟨rfl, rfl⟩

/-- Witness for C4 at concrete inputs: an attached endpoint whose very
first write attempt accepts the byte. -/
theorem put8_blocking_budget_witness :
    RETRY_BOUND = 1000 ∧ RETRY_SLEEP_USEC = 1000000 ∧
    (1 : Nat) ≤ RETRY_BOUND ∧
    (sampleAttached.conn = -1 → (1 : Nat) = 0 ∧ (1 : Nat) = 0 ∧
      sampleAttached = sampleAttached) ∧
    (sampleAttached.conn ≠ -1 → sampleAttached = sampleAttached ∧
      ((∀ i, i < RETRY_BOUND → WriteResult.ok 1 = WriteResult.eagain) →
        (1 : Nat) = 0 ∧ (1 : Nat) = RETRY_BOUND) ∧
      (∀ j, j < RETRY_BOUND → (∀ i, i < j → WriteResult.ok 1 = WriteResult.eagain) →
        (WriteResult.ok 1 = WriteResult.ok 1 → (1 : Nat) = 1 ∧ (1 : Nat) = j + 1) ∧
        ((WriteResult.ok 1 = WriteResult.err ∨
            ∃ c, c ≠ 1 ∧ WriteResult.ok 1 = WriteResult.ok c) →
          (1 : Nat) = 0 ∧ (1 : Nat) = j + 1))) :=
  put8_blocking_budget sampleAttached sampleAttached 9 true dummyEnv
    (fun _ => WriteResult.ok 1) 1 1 sampleAttached (by decide) (by decide)
/-- Counterexample to C2 as stated: on an attached endpoint a non-transient
write error inside `socket_put8_blocking` makes it return failure without
resetting the connection descriptor — the state comes back unchanged, still
attached. -/
theorem put8_blocking_err_keeps_conn :
    socket_put8_blocking sampleAttached 5 true dummyEnv (fun _ => WriteResult.err) =
      some (0, 1, sampleAttached) ∧ sampleAttached.conn = 7 :=
  ⟨by decide, rfl⟩

/-- Claim C2 (amended): on an attached connection a non-transient I/O error
(errno other than `EAGAIN`) makes `socket_get8`, `socket_put8`,
`socket_getN` and `socket_putN` close the connection and reset the
descriptor to the unset sentinel before returning, but
`socket_put8_blocking` returns failure leaving the descriptor attached. -/
theorem detach_on_error (s s1 : SockState) (server : Bool) (env : AttachEnv)
    (ha : acceptConnection s server env = some s1) (hc : s1.conn ≠ -1) :
    (socket_get8 s server env .err =
      some (SENTINEL32, { s1 with conn := -1, closed := s1.conn :: s1.closed })) ∧
    (∀ b, socket_put8 s b server env .err =
      some (0, { s1 with conn := -1, closed := s1.conn :: s1.closed })) ∧
    (∀ n chunks, socket_getN s n server env .err chunks =
      some ([], 0xff, { s1 with conn := -1, closed := s1.conn :: s1.closed })) ∧
    (∀ n data chunks, socket_putN s n data server env .err chunks =
      some (0, { s1 with conn := -1, closed := s1.conn :: s1.closed })) ∧
    (∀ b ws, ws 0 = WriteResult.err →
      socket_put8_blocking s b server env ws = some (0, 1, s1)) := by
  refine ⟨?_, ?_, ?_, ?_, ?_⟩
  · unfold socket_get8
    rw [ha]
    simp [hc]
  · intro b
    unfold socket_put8
    rw [ha]
    simp [hc]
  · intro n chunks
    unfold socket_getN
    rw [ha]
    simp [hc]
  · intro n data chunks
    unfold socket_putN
    rw [ha]
    simp [hc]
  · intro b ws hw
    unfold socket_put8_blocking
    rw [ha]
    simp only [hc, if_neg]
    have hloop := (put8BlockingLoop_first ws 0 0 RETRY_BOUND (by decide)
      (fun i hi => absurd hi (Nat.not_lt_zero i))).2 (Or.inl (by simpa using hw))
    rw [hloop]
    simp

/-- Witness for the amended C2 at concrete inputs: a non-transient read
error on an attached endpoint detaches it. -/
theorem detach_on_error_witness :
    socket_get8 sampleAttached true dummyEnv RWResult.err =
      some (SENTINEL32, { sampleAttached with conn := -1, closed := [7] }) :=
  (detach_on_error sampleAttached sampleAttached true dummyEnv (by decide) (by decide)).1
/-- Claim C7: on an attached endpoint with `n > 0`, `socket_putN` returns
success when the initial non-blocking write accepts all `n` bytes; when it
accepts `0 < k < n` bytes it commits to blocking writes until the
remainder is out and then returns success; zero bytes accepted under the
transient `EAGAIN` condition returns failure with the state unchanged (no
detach); a non-transient error closes and detaches the connection and
returns failure. -/
theorem putN_outcomes (s : SockState) (n : Nat) (data : List Nat) (server : Bool)
    (env : AttachEnv) (w0 : WriteResult) (chunks : List Nat)
    (hconn : s.conn ≠ -1) (_hn : 0 < n) :
    (w0 = .ok n → socket_putN s n data server env w0 chunks = some (1, s)) ∧
    (∀ k, w0 = .ok k → 0 < k → k < n → putNLoop n k chunks = some () →
      socket_putN s n data server env w0 chunks = some (1, s)) ∧
    (w0 = .eagain → socket_putN s n data server env w0 chunks = some (0, s)) ∧
    (w0 = .err → socket_putN s n data server env w0 chunks =
      some (0, { s with conn := -1, closed := s.conn :: s.closed })) := by
  refine ⟨?_, ?_, ?_, ?_⟩
  · intro hw
    subst hw
    unfold socket_putN
    rw [acceptConnection_attached s server env hconn]
    simp [hconn]
  · intro k hw hk0 hkn hl
    subst hw
    unfold socket_putN
    rw [acceptConnection_attached s server env hconn]
    have hne : k ≠ n := by omega
    simp [hconn, hne, hk0, hl]
  · intro hw
    subst hw
    unfold socket_putN
    rw [acceptConnection_attached s server env hconn]
    simp [hconn]
  · intro hw
    subst hw
    unfold socket_putN
    rw [acceptConnection_attached s server env hconn]
    simp [hconn]

/-- Witness for C7 at concrete inputs: a write of 2 bytes that accepts one
byte and completes the second through the blocking loop. -/
theorem putN_outcomes_witness :
    socket_putN sampleAttached 2 [10, 11] true dummyEnv (WriteResult.ok 1) [1] =
      some (1, sampleAttached) :=
  (putN_outcomes sampleAttached 2 [10, 11] true dummyEnv (WriteResult.ok 1) [1]
    (by decide) (by decide)).2.1 1 rfl (by decide) (by decide) (by decide)

/-- Claim C10: on an attached connection `socket_getN` with `nbytes = 0`
transfers no data, performs no blocking completion, leaves the state
unchanged and sets the status slot to 0: a successful zero-length POSIX
read (`hr`, `hwf`) returns count 0, which equals `nbytes`, so the no-data
outcome cannot occur. -/
theorem getN_zero (s : SockState) (server : Bool) (env : AttachEnv) (r0 : RWResult)
    (bs : List Nat) (chunks : List (List Nat)) (hconn : s.conn ≠ -1)
    (hr : r0 = .ok bs) (hwf : r0.wf 0) :
    socket_getN s 0 server env r0 chunks = some ([], 0, s) := by
  subst hr
  have hb : bs = [] := by
    cases bs with
    | nil => rfl
    | cons b t => simp [RWResult.wf] at hwf
  subst hb
  unfold socket_getN
  rw [acceptConnection_attached s server env hconn]
  simp [hconn]

/-- Witness for C10 at concrete inputs. -/
theorem getN_zero_witness :
    socket_getN sampleAttached 0 true dummyEnv (RWResult.ok []) [[1, 2]] =
      some ([], 0, sampleAttached) :=
  getN_zero sampleAttached true dummyEnv (RWResult.ok []) [] [[1, 2]]
    (by decide) rfl (by exact ⟨by decide, by decide⟩)
theorem getNLoop_length (n : Nat) : ∀ (chunks : List (List Nat)) (acc data : List Nat),
    acc.length ≤ n → chunksWF n acc.length chunks →
    getNLoop n acc chunks = some data → data.length = n := by
  intro chunks
  induction chunks with
  | nil =>
    intro acc data hle hwf h
    unfold getNLoop at h
    split_ifs at h with hc
    simp at h
    subst h
    omega
  | cons c rest ih =>
    intro acc data hle hwf h
    unfold getNLoop at h
    split_ifs at h with hc
    · simp at h
      subst h
      omega
    · obtain ⟨hcl, hwf2⟩ := hwf
      have hlen : (acc ++ c.map (fun b => b % 256)).length = acc.length + c.length := by
        simp
      apply ih (acc ++ c.map (fun b => b % 256)) data ?_ ?_ h
      · omega
      · rw [hlen]
        exact hwf2

/-- Claim C1: on an attached endpoint, for `n > 0` a `socket_getN` call
behaves as exactly one of: the initial non-blocking read returns all `n`
bytes and the status slot is set to 0; it returns `0 < k < n` bytes, the
blocking completion loop gathers the remaining `n − k` bytes, and the
status slot is set to 0 with the full `n`-byte buffer (a partial arrival
never surfaces as a short success); it returns no data with the transient
`EAGAIN` condition, the status slot is set to the marker `0xff`, and the
state — in particular the attached connection — is unchanged. -/
theorem getN_outcomes (s : SockState) (n : Nat) (server : Bool) (env : AttachEnv)
    (r0 : RWResult) (chunks : List (List Nat))
    (hconn : s.conn ≠ -1) (_hn : 0 < n) :
    (∀ bs, r0 = .ok bs → bs.length = n →
      socket_getN s n server env r0 chunks = some (bs.map (fun b => b % 256), 0, s)) ∧
    (∀ bs data, r0 = .ok bs → 0 < bs.length → bs.length < n →
      chunksWF n bs.length chunks →
      getNLoop n (bs.map (fun b => b % 256)) chunks = some data →
      socket_getN s n server env r0 chunks = some (data, 0, s) ∧ data.length = n) ∧
    (r0 = .eagain → socket_getN s n server env r0 chunks = some ([], 0xff, s)) := by
  refine ⟨?_, ?_, ?_⟩
  · intro bs hw hlen
    subst hw
    unfold socket_getN
    rw [acceptConnection_attached s server env hconn]
    simp [hconn, hlen]
  · intro bs data hw hk0 hkn hwf hl
    subst hw
    have hne : bs.length ≠ n := by omega
    have hdl : data.length = n := by
      apply getNLoop_length n chunks (bs.map (fun b => b % 256)) data ?_ ?_ hl
      · simp; omega
      · simpa using hwf
    constructor
    · unfold socket_getN
      rw [acceptConnection_attached s server env hconn]
      simp [hconn, hne, hk0, hl]
    · exact hdl
  · intro hw
    subst hw
    unfold socket_getN
    rw [acceptConnection_attached s server env hconn]
    simp [hconn]

/-- Witness for C1 at concrete inputs: a read of 2 bytes that receives one
byte at once and the second through the blocking completion loop. -/
theorem getN_outcomes_witness :
    socket_getN sampleAttached 2 true dummyEnv (RWResult.ok [7]) [[9]] =
      some ([7, 9], 0, sampleAttached) ∧ ([7, 9] : List Nat).length = 2 :=
  (getN_outcomes sampleAttached 2 true dummyEnv (RWResult.ok [7]) [[9]]
    (by decide) (by decide)).2.1 [7] [7, 9] rfl (by decide) (by decide)
    (by exact ⟨by decide, trivial⟩) (by decide)
theorem acceptConnection_broken (s : SockState) (env : AttachEnv)
    (hsock : s.sock ≠ -1) (hcd : s.conn = -1 ∨ s.conn = s.sock) :
    acceptConnection s false env = some { s with conn := s.sock } := by
  rcases hcd with hc | hc
  · exact acceptConnection_client_sock s env hc hsock
  · have hs : ({ s with conn := s.sock } : SockState) = s := by
      cases s
      simp at hc ⊢
      rw [hc]
    rw [hs]
    exact acceptConnection_attached s false env (by rw [hc]; exact hsock)

theorem brokenClient_step (s : SockState) (op : Op)
    (hb : brokenClient s) (he : op.allErr) :
    ∃ o s1, step false s op = some (o, s1) ∧ o.isFail = true ∧ brokenClient s1 := by
  obtain ⟨hsock, hmem, hcd⟩ := hb
  have ha := acceptConnection_broken s dummyEnv hsock hcd
  have hc1 : ({ s with conn := s.sock } : SockState).conn ≠ -1 := hsock
  cases op with
  | oget8 env r =>
    have ha := acceptConnection_broken s env hsock hcd
    subst he
    refine ⟨OpOut.val SENTINEL32,
      { s with conn := -1, closed := s.sock :: s.closed }, ?_, by decide, ?_⟩
    · simp only [step]
      unfold socket_get8
      rw [ha]
      simp [hc1]
    · exact ⟨hsock, by simp [hmem], Or.inl rfl⟩
  | oput8 b env w =>
    have ha := acceptConnection_broken s env hsock hcd
    subst he
    refine ⟨OpOut.flag 0,
      { s with conn := -1, closed := s.sock :: s.closed }, ?_, by decide, ?_⟩
    · simp only [step]
      unfold socket_put8
      rw [ha]
      simp [hc1]
    · exact ⟨hsock, by simp [hmem], Or.inl rfl⟩
  | oput8b b env ws =>
    have ha := acceptConnection_broken s env hsock hcd
    refine ⟨OpOut.flag 0, { s with conn := s.sock }, ?_, by decide, ?_⟩
    · simp only [step]
      unfold socket_put8_blocking
      rw [ha]
      simp only [hc1, if_neg]
      have hloop := (put8BlockingLoop_first ws 0 0 RETRY_BOUND (by decide)
        (fun i hi => absurd hi (Nat.not_lt_zero i))).2 (Or.inl (by simpa using he 0))
      rw [hloop]
      simp
    · exact ⟨hsock, hmem, Or.inr rfl⟩
  | ogetN n env r0 chunks =>
    have ha := acceptConnection_broken s env hsock hcd
    subst he
    refine ⟨OpOut.nres [] 0xff,
      { s with conn := -1, closed := s.sock :: s.closed }, ?_, by decide, ?_⟩
    · simp only [step]
      unfold socket_getN
      rw [ha]
      simp [hc1]
    · exact ⟨hsock, by simp [hmem], Or.inl rfl⟩
  | oputN n data env w0 chunks =>
    have ha := acceptConnection_broken s env hsock hcd
    subst he
    refine ⟨OpOut.flag 0,
      { s with conn := -1, closed := s.sock :: s.closed }, ?_, by decide, ?_⟩
    · simp only [step]
      unfold socket_putN
      rw [ha]
      simp [hc1]
    · exact ⟨hsock, by simp [hmem], Or.inl rfl⟩
/-- A Client endpoint just after a connection loss: the underlying
descriptor 3 is closed and the connection descriptor was reset. -/
def brokenSample : SockState :=
  { name := "A", port := 100, sock := 3, conn := -1, closed := [3] }

/-- Counterexample to C3 as stated: on a Client endpoint whose connection
descriptor was reset after a non-transient error, a subsequent
`socket_put8_blocking` re-assigns the connection descriptor to the closed
underlying descriptor and returns with it still attached — the endpoint
does not remain permanently detached. -/
theorem brokenClient_reattach_cex :
    socket_put8_blocking brokenSample 0 false dummyEnv (fun _ => WriteResult.err) =
      some (0, 1, { brokenSample with conn := 3 }) ∧
    ({ brokenSample with conn := 3 } : SockState).conn ≠ -1 :=
  ⟨by decide, by decide⟩

/-- Claim C3 (amended): once a Client endpoint is broken (underlying
descriptor closed after a non-transient error, connection descriptor unset
or pointing at that closed descriptor), every subsequent sequence of
operations — whose reads/writes err because the descriptor is closed —
returns only failure/no-data outcomes and leaves the endpoint broken: it
never regains a usable connection, although operations transiently
re-assign the connection field to the closed underlying descriptor (and
`socket_put8_blocking` returns with it still assigned). -/
theorem brokenClient_permanent (s : SockState) (ops : List Op)
    (hb : brokenClient s) (he : ∀ op ∈ ops, op.allErr) :
    ∃ outs s1, runOps false s ops = some (outs, s1) ∧
      (∀ o ∈ outs, o.isFail = true) ∧ brokenClient s1 := by
  induction ops generalizing s with
  | nil => exact ⟨[], s, rfl, by simp, hb⟩
  | cons op rest ih =>
    obtain ⟨o, s1, hstep, hfail, hb1⟩ := brokenClient_step s op hb (he op (by simp))
    obtain ⟨outs, s2, hrun, hfails, hb2⟩ := ih s1 hb1 (fun op2 hm => he op2 (by simp [hm]))
    refine ⟨o :: outs, s2, ?_, ?_, hb2⟩
    · simp [runOps, hstep, hrun]
    · intro o2 hm
      rcases List.mem_cons.mp hm with rfl | hm2
      · exact hfail
      · exact hfails o2 hm2

/-- Witness for the amended C3 at concrete inputs: a broken Client endpoint
and one failed read followed by one failed blocking write. -/
theorem brokenClient_permanent_witness :
    ∃ outs s1,
      runOps false brokenSample
        [Op.oget8 dummyEnv RWResult.err,
         Op.oput8b 4 dummyEnv (fun _ => WriteResult.err)] = some (outs, s1) ∧
      (∀ o ∈ outs, o.isFail = true) ∧ brokenClient s1 :=
  brokenClient_permanent brokenSample
    [Op.oget8 dummyEnv RWResult.err, Op.oput8b 4 dummyEnv (fun _ => WriteResult.err)]
    (by exact ⟨by decide, by decide, Or.inl rfl⟩)
    (by
      intro op hm
      rcases List.mem_cons.mp hm with rfl | hm2
      · rfl
      · rcases List.mem_cons.mp hm2 with rfl | hm3
        · intro i; rfl
        · simp at hm3)
